import Mathlib

/-!
Shallow embedding of `src/main.c` (japrozs/zd): a 64-bit Mach-O header and
load-command decoder.  The input stream is modelled as a list of byte values
together with a cursor position; `fread` is modelled faithfully to the C
library behaviour the program relies on: a read copies as many bytes as are
available, the cursor advances by the number of bytes actually copied, and
bytes of the destination that a short read does not overwrite keep their
previous contents (zero, since the destination `object_file` is a
zero-initialised global; indeterminate local bytes are also modelled as
zero).  The return value of `fread` is ignored, as in the source.
-/

namespace Zd

/-- Stream state: the whole underlying file as a byte list plus the cursor,
mirroring a `FILE *` used with `fread`/`fseek`. -/
structure RState where
  data : List Nat
  pos : Nat
  deriving DecidableEq, Repr

/-- Little-endian value of a byte list (missing high bytes count as zero,
matching a short `fread` into zeroed storage). -/
def leBytes : List Nat → Nat
  | [] => 0
  | b :: rest => b + 256 * leBytes rest

/-- Model of `fread(buf, 1, n, file)`: returns the bytes actually available
(at most `n`) and advances the cursor by that many bytes. -/
def freadBytes (n : Nat) (st : RState) : List Nat × RState :=
  (((st.data.drop st.pos).take n),
   ⟨st.data, st.pos + min n (st.data.length - st.pos)⟩)

/-- Model of `fread(&x, w, 1, file)` for a `w`-byte little-endian unsigned
integer field. -/
def fread (w : Nat) (st : RState) : Nat × RState :=
  let r := freadBytes w st
  (leBytes r.1, r.2)

-- Load-command tag constants, from <mach-o/loader.h> as used by the source.
def LC_SYMTAB : Nat := 0x2
def LC_DYSYMTAB : Nat := 0xb
def LC_SEGMENT_64 : Nat := 0x19
def LC_BUILD_VERSION : Nat := 0x32

/-- Embeds `struct nlist_64_t` of the source. -/
structure nlist_64_t where
  n_strx : Nat
  n_type : Nat
  n_sect : Nat
  n_desc : Nat
  n_value : Nat
  deriving DecidableEq, Repr

/-- Embeds `struct dysymtab_command_t` of the source (18 `uint32_t` fields). -/
structure dysymtab_command_t where
  ilocalsym : Nat
  nlocalsym : Nat
  iextdefsym : Nat
  nextdefsym : Nat
  iundefsym : Nat
  nundefsym : Nat
  tocoff : Nat
  ntoc : Nat
  modtaboff : Nat
  nmodtab : Nat
  extrefsymoff : Nat
  nextrefsyms : Nat
  indirectsymoff : Nat
  nindirectsyms : Nat
  extreloff : Nat
  nextrel : Nat
  locreloff : Nat
  nlocrel : Nat
  deriving DecidableEq, Repr

/-- Embeds `struct symtab_command_t` of the source.  The `string_table`
and `symbol_table` pointers are uninitialised after the decode loop; that
unpopulated state is modelled as `none`.  The resolver pass assigns only
`symbol_table` (the string-table bytes are read into a function-local
buffer that is never stored into the command), so `string_table` is never
populated by the program. -/
structure symtab_command_t where
  symoff : Nat
  nsyms : Nat
  stroff : Nat
  strsize : Nat
  string_table : Option (List Nat)
  symbol_table : Option (List nlist_64_t)
  deriving DecidableEq, Repr

/-- Embeds `struct section_64_t` of the source.  The two 16-byte name arrays are
byte lists. -/
structure section_64_t where
  sectname : List Nat
  segname : List Nat
  addr : Nat
  size : Nat
  offset : Nat
  align : Nat
  reloff : Nat
  nreloc : Nat
  flags : Nat
  reserved1 : Nat
  reserved2 : Nat
  reserved3 : Nat
  deriving DecidableEq, Repr

/-- Embeds `struct segment_command_64_t` of the source. -/
structure segment_command_64_t where
  segname : List Nat
  vmaddr : Nat
  vmsize : Nat
  fileoff : Nat
  filesize : Nat
  maxprot : Nat
  initprot : Nat
  nsects : Nat
  flags : Nat
  sections : List section_64_t
  deriving DecidableEq, Repr

/-- Embeds `struct build_version_command_t` of the source. -/
structure build_version_command_t where
  platform : Nat
  minos : Nat
  sdk : Nat
  ntools : Nat
  deriving DecidableEq, Repr

/-- The body of a load command: the source uses an untagged `union`
discriminated externally by the `cmd` field; the spec's data model calls for
a tagged union, and the parser only ever builds the member matching `cmd`. -/
inductive load_command_body where
  | seg64 (g : segment_command_64_t)
  | symtab (s : symtab_command_t)
  | dysymtab (d : dysymtab_command_t)
  | buildVersion (b : build_version_command_t)
  deriving DecidableEq, Repr

/-- Embeds `struct load_command_t` of the source. -/
structure load_command_t where
  cmd : Nat
  cmd_size : Nat
  body : load_command_body
  deriving DecidableEq, Repr

/-- Embeds `struct mach_object_file_t` of the source: the eight header words plus
the decoded command array. -/
structure mach_object_file_t where
  magic : Nat
  cpu_type : Nat
  cpu_subtype : Nat
  file_type : Nat
  number_of_load_commands : Nat
  size_of_load_commands : Nat
  flags : Nat
  reserved : Nat
  commands : List load_command_t
  deriving DecidableEq, Repr

/-- Decode errors.  The only failure path in the source is the `default`
branch of the tag switch (`printf` + `exit(EXIT_FAILURE)`); no other
condition is checked, so no other error exists. -/
inductive ParseError where
  | unsupportedLoadCommand (tag : Nat)
  deriving DecidableEq, Repr

/-- The eight header `fread`s at the top of `parse_file` (lines 171-178).
`commands` is left empty (the global's `NULL` pointer). -/
def parseHeader (st : RState) : mach_object_file_t × RState :=
  let r1 := fread 4 st
  let r2 := fread 4 r1.2
  let r3 := fread 4 r2.2
  let r4 := fread 4 r3.2
  let r5 := fread 4 r4.2
  let r6 := fread 4 r5.2
  let r7 := fread 4 r6.2
  let r8 := fread 4 r7.2
  ({ magic := r1.1, cpu_type := r2.1, cpu_subtype := r3.1, file_type := r4.1,
     number_of_load_commands := r5.1, size_of_load_commands := r6.1,
     flags := r7.1, reserved := r8.1, commands := [] }, r8.2)

/-- The twelve `fread`s of one `section_64_t` record (lines 217-228). -/
def parseSection (st : RState) : section_64_t × RState :=
  let r1 := freadBytes 16 st
  let r2 := freadBytes 16 r1.2
  let r3 := fread 8 r2.2
  let r4 := fread 8 r3.2
  let r5 := fread 4 r4.2
  let r6 := fread 4 r5.2
  let r7 := fread 4 r6.2
  let r8 := fread 4 r7.2
  let r9 := fread 4 r8.2
  let r10 := fread 4 r9.2
  let r11 := fread 4 r10.2
  let r12 := fread 4 r11.2
  ({ sectname := r1.1, segname := r2.1, addr := r3.1, size := r4.1,
     offset := r5.1, align := r6.1, reloff := r7.1, nreloc := r8.1,
     flags := r9.1, reserved1 := r10.1, reserved2 := r11.1,
     reserved3 := r12.1 }, r12.2)

/-- The `for (k = 0; k < nsects; k++)` loop (lines 213-244): reads exactly
`n` section records in sequence. -/
def parseSections : Nat → RState → List section_64_t × RState
  | 0, st => ([], st)
  | n + 1, st =>
    let r := parseSection st
    let rr := parseSections n r.2
    (r.1 :: rr.1, rr.2)

/-- The `LC_SEGMENT_64` case body (lines 188-255): nine fixed fields then
`nsects` section records. -/
def parseSegment (st : RState) : segment_command_64_t × RState :=
  let r1 := freadBytes 16 st
  let r2 := fread 8 r1.2
  let r3 := fread 8 r2.2
  let r4 := fread 8 r3.2
  let r5 := fread 8 r4.2
  let r6 := fread 4 r5.2
  let r7 := fread 4 r6.2
  let r8 := fread 4 r7.2
  let r9 := fread 4 r8.2
  let rs := parseSections r8.1 r9.2
  ({ segname := r1.1, vmaddr := r2.1, vmsize := r3.1, fileoff := r4.1,
     filesize := r5.1, maxprot := r6.1, initprot := r7.1, nsects := r8.1,
     flags := r9.1, sections := rs.1 }, rs.2)

/-- The `LC_DYSYMTAB` case body (lines 256-307): 18 `uint32_t` fields. -/
def parseDysymtab (st : RState) : dysymtab_command_t × RState :=
  let r1 := fread 4 st
  let r2 := fread 4 r1.2
  let r3 := fread 4 r2.2
  let r4 := fread 4 r3.2
  let r5 := fread 4 r4.2
  let r6 := fread 4 r5.2
  let r7 := fread 4 r6.2
  let r8 := fread 4 r7.2
  let r9 := fread 4 r8.2
  let r10 := fread 4 r9.2
  let r11 := fread 4 r10.2
  let r12 := fread 4 r11.2
  let r13 := fread 4 r12.2
  let r14 := fread 4 r13.2
  let r15 := fread 4 r14.2
  let r16 := fread 4 r15.2
  let r17 := fread 4 r16.2
  let r18 := fread 4 r17.2
  ({ ilocalsym := r1.1, nlocalsym := r2.1, iextdefsym := r3.1,
     nextdefsym := r4.1, iundefsym := r5.1, nundefsym := r6.1,
     tocoff := r7.1, ntoc := r8.1, modtaboff := r9.1, nmodtab := r10.1,
     extrefsymoff := r11.1, nextrefsyms := r12.1, indirectsymoff := r13.1,
     nindirectsyms := r14.1, extreloff := r15.1, nextrel := r16.1,
     locreloff := r17.1, nlocrel := r18.1 }, r18.2)

/-- The `LC_SYMTAB` case body (lines 308-330): four `uint32_t` fields; the
string/symbol data is deferred to the resolver pass. -/
def parseSymtab (st : RState) : symtab_command_t × RState :=
  let r1 := fread 4 st
  let r2 := fread 4 r1.2
  let r3 := fread 4 r2.2
  let r4 := fread 4 r3.2
  ({ symoff := r1.1, nsyms := r2.1, stroff := r3.1, strsize := r4.1,
     string_table := none, symbol_table := none }, r4.2)

/-- The `LC_BUILD_VERSION` case body (lines 331-354): four `uint32_t`
fields; the `ntools` trailing tool entries are not read. -/
def parseBuildVersion (st : RState) : build_version_command_t × RState :=
  let r1 := fread 4 st
  let r2 := fread 4 r1.2
  let r3 := fread 4 r2.2
  let r4 := fread 4 r3.2
  ({ platform := r1.1, minos := r2.1, sdk := r3.1, ntools := r4.1 }, r4.2)

/-- One iteration of the decode loop (lines 183-358): read the tag and the
declared size, then dispatch; any unrecognised tag aborts the decode. -/
def parseCommand (st : RState) : Except ParseError (load_command_t × RState) :=
  let rc := fread 4 st
  let rs := fread 4 rc.2
  if rc.1 = LC_SEGMENT_64 then
    let rb := parseSegment rs.2
    .ok ({ cmd := rc.1, cmd_size := rs.1, body := .seg64 rb.1 }, rb.2)
  else if rc.1 = LC_DYSYMTAB then
    let rb := parseDysymtab rs.2
    .ok ({ cmd := rc.1, cmd_size := rs.1, body := .dysymtab rb.1 }, rb.2)
  else if rc.1 = LC_SYMTAB then
    let rb := parseSymtab rs.2
    .ok ({ cmd := rc.1, cmd_size := rs.1, body := .symtab rb.1 }, rb.2)
  else if rc.1 = LC_BUILD_VERSION then
    let rb := parseBuildVersion rs.2
    .ok ({ cmd := rc.1, cmd_size := rs.1, body := .buildVersion rb.1 }, rb.2)
  else
    .error (.unsupportedLoadCommand rc.1)

/-- The `for (i = 0; i < number_of_load_commands; i++)` decode loop
(lines 181-359): exactly `n` commands, aborting the whole decode on the
first unrecognised tag. -/
def parseCommands : Nat → RState → Except ParseError (List load_command_t × RState)
  | 0, st => .ok ([], st)
  | n + 1, st =>
    match parseCommand st with
    | .error e => .error e
    | .ok (c, st') =>
      match parseCommands n st' with
      | .error e => .error e
      | .ok (cs, st'') => .ok (c :: cs, st'')

/-- One `fread` group of a 16-byte `nlist_64_t` entry (lines 375-379). -/
def readNlist (st : RState) : nlist_64_t × RState :=
  let r1 := fread 4 st
  let r2 := fread 1 r1.2
  let r3 := fread 1 r2.2
  let r4 := fread 2 r3.2
  let r5 := fread 8 r4.2
  ({ n_strx := r1.1, n_type := r2.1, n_sect := r3.1, n_desc := r4.1,
     n_value := r5.1 }, r5.2)

/-- The `for (k = 0; k < nsyms; k++)` loop (lines 371-389). -/
def readNlists : Nat → RState → List nlist_64_t × RState
  | 0, st => ([], st)
  | n + 1, st =>
    let r := readNlist st
    let rr := readNlists n r.2
    (r.1 :: rr.1, rr.2)

/-- Resolution of one symbol-table command (lines 365-391): `fseek` to
`stroff` and read `strsize` bytes into a local buffer — which the source
then leaks: lines 366-367 declare a function-local `string_table` pointer
that is never assigned to the command's `string_table` field — then
`fseek` to `symoff` and store the `nsyms` decoded 16-byte entries into
the command's `symbol_table` in place (lines 369 and 381).  Only
`symbol_table` is attached. -/
def resolveSymtabCmd (data : List Nat) (c : load_command_t) : load_command_t :=
  match c.body with
  | .symtab s =>
    let _string_table := freadBytes s.strsize ⟨data, s.stroff⟩
    let rSyms := readNlists s.nsyms ⟨data, s.symoff⟩
    { c with body := .symtab { s with symbol_table := some rSyms.1 } }
  | _ => c

/-- The resolver scan (lines 361-393): walk the decoded commands, resolve
the first one whose tag is `LC_SYMTAB`, then `break`. -/
def resolvePass (data : List Nat) : List load_command_t → List load_command_t
  | [] => []
  | c :: rest =>
    if c.cmd = LC_SYMTAB then resolveSymtabCmd data c :: rest
    else c :: resolvePass data rest

/-- Embeds `parse_file` (lines 169-394): header, decode loop, resolver pass. -/
def parse_file (data : List Nat) : Except ParseError mach_object_file_t :=
  let rh := parseHeader ⟨data, 0⟩
  match parseCommands rh.1.number_of_load_commands rh.2 with
  | .error e => .error e
  | .ok (cs, _) => .ok { rh.1 with commands := resolvePass data cs }

/-! Part: Encoder

A reference serialiser for the input format of §6 of the spec: it writes
exactly the bytes the decoder reads, field by field in the declared order,
and is used to state the round-trip and hyperproperty claims about
well-formed streams. -/

/-- Little-endian encoding of `v` in `w` bytes. -/
def encBytes : Nat → Nat → List Nat
  | 0, _ => []
  | w + 1, v => v % 256 :: encBytes w (v / 256)

/-- Serialise one 80-byte `section_64_t` record. -/
def encodeSection (s : section_64_t) : List Nat :=
  s.sectname ++ s.segname ++ encBytes 8 s.addr ++ encBytes 8 s.size ++
  encBytes 4 s.offset ++ encBytes 4 s.align ++ encBytes 4 s.reloff ++
  encBytes 4 s.nreloc ++ encBytes 4 s.flags ++ encBytes 4 s.reserved1 ++
  encBytes 4 s.reserved2 ++ encBytes 4 s.reserved3

/-- Serialise a segment body: 64 fixed bytes then the section records. -/
def encodeSegment (g : segment_command_64_t) : List Nat :=
  g.segname ++ encBytes 8 g.vmaddr ++ encBytes 8 g.vmsize ++
  encBytes 8 g.fileoff ++ encBytes 8 g.filesize ++ encBytes 4 g.maxprot ++
  encBytes 4 g.initprot ++ encBytes 4 g.nsects ++ encBytes 4 g.flags ++
  (g.sections.map encodeSection).flatten

/-- Serialise a dysymtab body: 18 `uint32_t` words. -/
def encodeDysymtab (d : dysymtab_command_t) : List Nat :=
  encBytes 4 d.ilocalsym ++ encBytes 4 d.nlocalsym ++
  encBytes 4 d.iextdefsym ++ encBytes 4 d.nextdefsym ++
  encBytes 4 d.iundefsym ++ encBytes 4 d.nundefsym ++
  encBytes 4 d.tocoff ++ encBytes 4 d.ntoc ++
  encBytes 4 d.modtaboff ++ encBytes 4 d.nmodtab ++
  encBytes 4 d.extrefsymoff ++ encBytes 4 d.nextrefsyms ++
  encBytes 4 d.indirectsymoff ++ encBytes 4 d.nindirectsyms ++
  encBytes 4 d.extreloff ++ encBytes 4 d.nextrel ++
  encBytes 4 d.locreloff ++ encBytes 4 d.nlocrel

/-- Serialise a symtab body: four `uint32_t` words. -/
def encodeSymtab (s : symtab_command_t) : List Nat :=
  encBytes 4 s.symoff ++ encBytes 4 s.nsyms ++
  encBytes 4 s.stroff ++ encBytes 4 s.strsize

/-- Serialise a build-version body: four `uint32_t` words. -/
def encodeBuildVersion (b : build_version_command_t) : List Nat :=
  encBytes 4 b.platform ++ encBytes 4 b.minos ++
  encBytes 4 b.sdk ++ encBytes 4 b.ntools

/-- Serialise a command body. -/
def encodeBody : load_command_body → List Nat
  | .seg64 g => encodeSegment g
  | .symtab s => encodeSymtab s
  | .dysymtab d => encodeDysymtab d
  | .buildVersion b => encodeBuildVersion b

/-- Serialise one load command: tag, declared size, body. -/
def encodeCommand (c : load_command_t) : List Nat :=
  encBytes 4 c.cmd ++ encBytes 4 c.cmd_size ++ encodeBody c.body

/-- Serialise a command sequence. -/
def encodeCmds (cs : List load_command_t) : List Nat :=
  (cs.map encodeCommand).flatten

/-- Serialise the 32-byte header. -/
def encodeHeaderBytes (o : mach_object_file_t) : List Nat :=
  encBytes 4 o.magic ++ encBytes 4 o.cpu_type ++ encBytes 4 o.cpu_subtype ++
  encBytes 4 o.file_type ++ encBytes 4 o.number_of_load_commands ++
  encBytes 4 o.size_of_load_commands ++ encBytes 4 o.flags ++
  encBytes 4 o.reserved

/-- Serialise a whole object file: header then the command stream. -/
def encodeFile (o : mach_object_file_t) : List Nat :=
  encodeHeaderBytes o ++ encodeCmds o.commands

/-! Part: Well-formedness

Bounds making each field representable in its declared C width, 16-byte
name arrays, section count matching the section list, and (for symtab
commands) the resolver-populated fields still unpopulated — i.e. exactly
the shapes `parse_file`'s first pass can produce. -/

/-- A well-formed 16-byte name array. -/
def wfName (l : List Nat) : Bool :=
  decide (l.length = 16) && l.all (fun b => decide (b < 256))

/-- Well-formed section record. -/
def wfSection (s : section_64_t) : Bool :=
  wfName s.sectname && wfName s.segname &&
  decide (s.addr < 2 ^ 64) && decide (s.size < 2 ^ 64) &&
  decide (s.offset < 2 ^ 32) && decide (s.align < 2 ^ 32) &&
  decide (s.reloff < 2 ^ 32) && decide (s.nreloc < 2 ^ 32) &&
  decide (s.flags < 2 ^ 32) && decide (s.reserved1 < 2 ^ 32) &&
  decide (s.reserved2 < 2 ^ 32) && decide (s.reserved3 < 2 ^ 32)

/-- Well-formed segment body: the declared `nsects` equals the number of
attached section records. -/
def wfSegment (g : segment_command_64_t) : Bool :=
  wfName g.segname &&
  decide (g.vmaddr < 2 ^ 64) && decide (g.vmsize < 2 ^ 64) &&
  decide (g.fileoff < 2 ^ 64) && decide (g.filesize < 2 ^ 64) &&
  decide (g.maxprot < 2 ^ 32) && decide (g.initprot < 2 ^ 32) &&
  decide (g.nsects = g.sections.length) && decide (g.nsects < 2 ^ 32) &&
  decide (g.flags < 2 ^ 32) && g.sections.all wfSection

/-- Well-formed symtab body, with the resolver fields unpopulated. -/
def wfSymtab (s : symtab_command_t) : Bool :=
  decide (s.symoff < 2 ^ 32) && decide (s.nsyms < 2 ^ 32) &&
  decide (s.stroff < 2 ^ 32) && decide (s.strsize < 2 ^ 32) &&
  decide (s.string_table = none) && decide (s.symbol_table = none)

/-- Well-formed dysymtab body. -/
def wfDysymtab (d : dysymtab_command_t) : Bool :=
  decide (d.ilocalsym < 2 ^ 32) && decide (d.nlocalsym < 2 ^ 32) &&
  decide (d.iextdefsym < 2 ^ 32) && decide (d.nextdefsym < 2 ^ 32) &&
  decide (d.iundefsym < 2 ^ 32) && decide (d.nundefsym < 2 ^ 32) &&
  decide (d.tocoff < 2 ^ 32) && decide (d.ntoc < 2 ^ 32) &&
  decide (d.modtaboff < 2 ^ 32) && decide (d.nmodtab < 2 ^ 32) &&
  decide (d.extrefsymoff < 2 ^ 32) && decide (d.nextrefsyms < 2 ^ 32) &&
  decide (d.indirectsymoff < 2 ^ 32) && decide (d.nindirectsyms < 2 ^ 32) &&
  decide (d.extreloff < 2 ^ 32) && decide (d.nextrel < 2 ^ 32) &&
  decide (d.locreloff < 2 ^ 32) && decide (d.nlocrel < 2 ^ 32)

/-- Well-formed build-version body. -/
def wfBuildVersion (b : build_version_command_t) : Bool :=
  decide (b.platform < 2 ^ 32) && decide (b.minos < 2 ^ 32) &&
  decide (b.sdk < 2 ^ 32) && decide (b.ntools < 2 ^ 32)

/-- Well-formed command: the tag matches the body variant and is one of the
four recognised values. -/
def wfCommand (c : load_command_t) : Bool :=
  decide (c.cmd_size < 2 ^ 32) &&
  match c.body with
  | .seg64 g => decide (c.cmd = LC_SEGMENT_64) && wfSegment g
  | .symtab s => decide (c.cmd = LC_SYMTAB) && wfSymtab s
  | .dysymtab d => decide (c.cmd = LC_DYSYMTAB) && wfDysymtab d
  | .buildVersion b => decide (c.cmd = LC_BUILD_VERSION) && wfBuildVersion b

/-- Well-formed command sequence. -/
def wfCommands (cs : List load_command_t) : Bool :=
  cs.all wfCommand

/-- Well-formed object: header fields fit in 32 bits and the commands are
well formed. -/
def wfFile (o : mach_object_file_t) : Bool :=
  decide (o.magic < 2 ^ 32) && decide (o.cpu_type < 2 ^ 32) &&
  decide (o.cpu_subtype < 2 ^ 32) && decide (o.file_type < 2 ^ 32) &&
  decide (o.number_of_load_commands < 2 ^ 32) &&
  decide (o.size_of_load_commands < 2 ^ 32) &&
  decide (o.flags < 2 ^ 32) && decide (o.reserved < 2 ^ 32) &&
  wfCommands o.commands

/-! Part: The text report (`pretty_print`, lines 396-480)

Embedded as a `String`-valued function.  The translation keeps the
source's format strings verbatim, including its slips: the segment block
is labelled `LC_SYMTAB`, the `vmsize` line prints `vmaddr`'s value, the
section records are never printed (the source has only a
`// print the sections` comment there), and the resolver-populated
string/symbol tables of a symtab command are never printed. -/

/-- One lowercase hex digit, as `printf %x` renders it. -/
def hexDigitChar (n : Nat) : Char :=
  if n < 10 then Char.ofNat (48 + n) else Char.ofNat (87 + n)

/-- Renders `w` hex digits of `v`, most significant first: `printf "%0wx"` for
values that fit in `w` digits (all fields here are so bounded). -/
def hexChars : Nat → Nat → List Char
  | 0, _ => []
  | w + 1, v => hexChars w (v / 16) ++ [hexDigitChar (v % 16)]

/-- Zero-padded hex rendering. -/
def hexPad (w v : Nat) : String :=
  String.mk (hexChars w v)

/-- Characters of a `%s`-printed byte array: up to the first NUL byte (or
the end of the array, standing for the NUL the C code assumes follows). -/
def cStringChars : List Nat → List Char
  | [] => []
  | b :: rest => if b = 0 then [] else Char.ofNat b :: cStringChars rest

/-- The `%s` rendering of a name byte array. -/
def cString (bs : List Nat) : String :=
  String.mk (cStringChars bs)

/-- The header block and separator (lines 398-407). -/
def render_header (o : mach_object_file_t) : String :=
  "magic                       : 0x" ++ hexPad 8 o.magic ++ "\n" ++
  "cpu_type                    : 0x" ++ hexPad 8 o.cpu_type ++ "\n" ++
  "cpu_subtype                 : 0x" ++ hexPad 8 o.cpu_subtype ++ "\n" ++
  "file_type                   : 0x" ++ hexPad 8 o.file_type ++ "\n" ++
  "number_of_load_commands     : 0x" ++ hexPad 8 o.number_of_load_commands ++ "\n" ++
  "size_of_load_commands       : 0x" ++ hexPad 8 o.size_of_load_commands ++ "\n" ++
  "flags                       : 0x" ++ hexPad 8 o.flags ++ "\n" ++
  "reserved                    : 0x" ++ hexPad 8 o.reserved ++ "\n" ++
  "---------------------------------------\n"

/-- One command block (the switch of lines 413-478). -/
def render_command (c : load_command_t) : String :=
  if c.cmd = LC_SEGMENT_64 then
    match c.body with
    | .seg64 g =>
      "LC_SYMTAB (0x" ++ hexPad 8 c.cmd ++ ")\n" ++
      "\tsegname       : \"" ++ cString g.segname ++ "\"\n" ++
      "\tvmaddr        : 0x" ++ hexPad 16 g.vmaddr ++ "\n" ++
      "\tvmsize        : 0x" ++ hexPad 16 g.vmaddr ++ "\n" ++
      "\tfileoff       : 0x" ++ hexPad 16 g.fileoff ++ "\n" ++
      "\tfilesize      : 0x" ++ hexPad 16 g.filesize ++ "\n" ++
      "\tmaxprot       : 0x" ++ hexPad 8 g.maxprot ++ "\n" ++
      "\tinitprot      : 0x" ++ hexPad 8 g.initprot ++ "\n" ++
      "\tnsects        : 0x" ++ hexPad 8 g.nsects ++ "\n" ++
      "\tflags         : 0x" ++ hexPad 8 g.flags ++ "\n" ++
      "\n"
    | _ => ""
  else if c.cmd = LC_BUILD_VERSION then
    match c.body with
    | .buildVersion b =>
      "LC_BUILD_VERSION (0x" ++ hexPad 8 c.cmd ++ ")\n" ++
      "\tplatform : 0x" ++ hexPad 8 b.platform ++ "\n" ++
      "\tminos    : 0x" ++ hexPad 8 b.minos ++ "\n" ++
      "\tsdk      : 0x" ++ hexPad 8 b.sdk ++ "\n" ++
      "\tntools   : 0x" ++ hexPad 8 b.ntools ++ "\n" ++
      "\n"
    | _ => ""
  else if c.cmd = LC_SYMTAB then
    match c.body with
    | .symtab s =>
      "LC_SYMTAB (0x" ++ hexPad 8 c.cmd ++ ")\n" ++
      "\tsymoff  : 0x" ++ hexPad 8 s.symoff ++ "\n" ++
      "\tnsyms   : 0x" ++ hexPad 8 s.nsyms ++ "\n" ++
      "\tstroff  : 0x" ++ hexPad 8 s.stroff ++ "\n" ++
      "\tstrsize : 0x" ++ hexPad 8 s.strsize ++ "\n\n"
    | _ => ""
  else if c.cmd = LC_DYSYMTAB then
    match c.body with
    | .dysymtab d =>
      "LC_DYSYMTAB (0x" ++ hexPad 8 c.cmd ++ ")\n" ++
      "\tilocalsym     : 0x" ++ hexPad 8 d.ilocalsym ++ "\n" ++
      "\tnlocalsym     : 0x" ++ hexPad 8 d.nlocalsym ++ "\n" ++
      "\tiextdefsym     : 0x" ++ hexPad 8 d.iextdefsym ++ "\n" ++
      "\tnextdefsym     : 0x" ++ hexPad 8 d.nextdefsym ++ "\n" ++
      "\tiundefsym     : 0x" ++ hexPad 8 d.iundefsym ++ "\n" ++
      "\tnundefsym     : 0x" ++ hexPad 8 d.nundefsym ++ "\n" ++
      "\ttocoff     : 0x" ++ hexPad 8 d.tocoff ++ "\n" ++
      "\tntoc     : 0x" ++ hexPad 8 d.ntoc ++ "\n" ++
      "\tmodtaboff     : 0x" ++ hexPad 8 d.modtaboff ++ "\n" ++
      "\tnmodtab     : 0x" ++ hexPad 8 d.nmodtab ++ "\n" ++
      "\textrefsymoff     : 0x" ++ hexPad 8 d.extrefsymoff ++ "\n" ++
      "\tnextrefsyms     : 0x" ++ hexPad 8 d.nextrefsyms ++ "\n" ++
      "\tindirectsymoff     : 0x" ++ hexPad 8 d.indirectsymoff ++ "\n" ++
      "\tnindirectsyms     : 0x" ++ hexPad 8 d.nindirectsyms ++ "\n" ++
      "\textreloff     : 0x" ++ hexPad 8 d.extreloff ++ "\n" ++
      "\tnextrel     : 0x" ++ hexPad 8 d.nextrel ++ "\n" ++
      "\tlocreloff     : 0x" ++ hexPad 8 d.locreloff ++ "\n" ++
      "\tnlocrel     : 0x" ++ hexPad 8 d.nlocrel ++ "\n\n"
    | _ => ""
  else
    "unknown opcode encountered : 0x" ++ hexPad 8 c.cmd ++ "\n"

/-- Embeds `pretty_print` (lines 396-480).  The C loop runs
`number_of_load_commands` times over the command array; for every decoded
object that array has exactly that many entries, so the loop walks the
whole `commands` list. -/
def pretty_print (o : mach_object_file_t) : String :=
  render_header o ++ String.join (o.commands.map render_command)

/-! Part: Concrete sample data used by witnesses and counterexamples -/

/-- A sample `__text` section record. -/
def sampleSection : section_64_t :=
  { sectname := [95, 95, 116, 101, 120, 116, 0, 0, 0, 0, 0, 0, 0, 0, 0, 0],
    segname := [95, 95, 84, 69, 88, 84, 0, 0, 0, 0, 0, 0, 0, 0, 0, 0],
    addr := 0x100, size := 0x20, offset := 0x200, align := 4, reloff := 0,
    nreloc := 0, flags := 0x80000400, reserved1 := 0, reserved2 := 0,
    reserved3 := 0 }

/-- A sample `__TEXT` segment command with one section. -/
def sampleSegment : load_command_t :=
  { cmd := LC_SEGMENT_64, cmd_size := 152,
    body := .seg64
      { segname := [95, 95, 84, 69, 88, 84, 0, 0, 0, 0, 0, 0, 0, 0, 0, 0],
        vmaddr := 0x100, vmsize := 0x1000, fileoff := 0, filesize := 0x1000,
        maxprot := 7, initprot := 5, nsects := 1, flags := 0,
        sections := [sampleSection] } }

/-- A sample build-version command. -/
def sampleBuildVersion : load_command_t :=
  { cmd := LC_BUILD_VERSION, cmd_size := 24,
    body := .buildVersion
      { platform := 1, minos := 0x000e0000, sdk := 0x000e0500, ntools := 0 } }

/-- A freshly decoded (unresolved) symtab command. -/
def mkSymtabCmd (sz symoff nsyms stroff strsize : Nat) : load_command_t :=
  { cmd := LC_SYMTAB, cmd_size := sz,
    body := .symtab
      { symoff := symoff, nsyms := nsyms, stroff := stroff,
        strsize := strsize, string_table := none, symbol_table := none } }

/-- A sample two-command object (segment + build version, no symtab). -/
def c1obj : mach_object_file_t :=
  { magic := 0xfeedfacf, cpu_type := 0x0100000c, cpu_subtype := 0,
    file_type := 1, number_of_load_commands := 2,
    size_of_load_commands := 176, flags := 0, reserved := 0,
    commands := [sampleSegment, sampleBuildVersion] }

/-- Unresolved symtab body whose tables point at the start of the file. -/
def c3sym : symtab_command_t :=
  { symoff := 0, nsyms := 1, stroff := 0, strsize := 4,
    string_table := none, symbol_table := none }

/-- The symtab command carrying `c3sym`. -/
def c3cmd : load_command_t :=
  { cmd := LC_SYMTAB, cmd_size := 24, body := .symtab c3sym }

/-- A 64-byte stand-in file for exercising the resolver. -/
def c3data : List Nat := List.range 64

/-- An object with one symtab command whose symbol entries start at the
command's own `cmd_size` field: `symoff = 36` with `nsyms = 1`, so the
one attached 16-byte entry begins with the `cmd_size` bytes
(offsets 36-39) as its `n_strx`. -/
def c8obj1 : mach_object_file_t :=
  { magic := 0, cpu_type := 0, cpu_subtype := 0, file_type := 0,
    number_of_load_commands := 1, size_of_load_commands := 24, flags := 0,
    reserved := 0, commands := [mkSymtabCmd 0 36 1 0 0] }

/-- Same as `c8obj1` except the command's declared `cmd_size` is 1. -/
def c8obj2 : mach_object_file_t :=
  { magic := 0, cpu_type := 0, cpu_subtype := 0, file_type := 0,
    number_of_load_commands := 1, size_of_load_commands := 24, flags := 0,
    reserved := 0, commands := [mkSymtabCmd 1 36 1 0 0] }

/-- An object with one symtab command whose symbol entries start at the
header's `cpu_type` word: `symoff = 4` with `nsyms = 1`, so the one
attached 16-byte entry begins with the `cpu_type` bytes (offsets 4-7) as
its `n_strx`. -/
def c10obj1 : mach_object_file_t :=
  { magic := 0xfeedfacf, cpu_type := 0, cpu_subtype := 0, file_type := 1,
    number_of_load_commands := 1, size_of_load_commands := 24, flags := 0,
    reserved := 0, commands := [mkSymtabCmd 24 4 1 0 0] }

/-- Same as `c10obj1` except `cpu_type` is 1. -/
def c10obj2 : mach_object_file_t :=
  { magic := 0xfeedfacf, cpu_type := 1, cpu_subtype := 0, file_type := 1,
    number_of_load_commands := 1, size_of_load_commands := 24, flags := 0,
    reserved := 0, commands := [mkSymtabCmd 24 4 1 0 0] }

/-- View of a decode result that erases the stored `cmd_size` of every
command and keeps everything else (header omitted: it is read before the
commands and cannot depend on them). -/
def resultExceptSize :
    Except ParseError mach_object_file_t →
      Option (List (Nat × load_command_body))
  | .error _ => none
  | .ok o => some (o.commands.map (fun c => (c.cmd, c.body)))

/-- View of a decode result keeping only the decoded command sequence. -/
def resultCommands :
    Except ParseError mach_object_file_t → Option (List load_command_t)
  | .error _ => none
  | .ok o => some o.commands

/-- A decoded-and-resolved object: a segment with one section and a symtab
with one resolved symbol. -/
def c9obj1 : mach_object_file_t :=
  { magic := 0xfeedfacf, cpu_type := 0x0100000c, cpu_subtype := 0,
    file_type := 1, number_of_load_commands := 2,
    size_of_load_commands := 176, flags := 0, reserved := 0,
    commands :=
      [{ cmd := LC_SEGMENT_64, cmd_size := 152,
         body := .seg64
           { segname := [95, 95, 84, 69, 88, 84, 0, 0, 0, 0, 0, 0, 0, 0, 0, 0],
             vmaddr := 0x100, vmsize := 0x1000, fileoff := 0,
             filesize := 0x1000, maxprot := 7, initprot := 5, nsects := 1,
             flags := 0, sections := [sampleSection] } },
       { cmd := LC_SYMTAB, cmd_size := 24,
         body := .symtab
           { symoff := 0, nsyms := 1, stroff := 0, strsize := 3,
             string_table := some [0, 97, 0],
             symbol_table :=
               some [{ n_strx := 1, n_type := 15, n_sect := 1, n_desc := 0,
                       n_value := 256 }] } }] }

/-- Same as `c9obj1` except: the segment's `vmsize` differs, its section
list is empty, and the symtab's resolved string/symbol tables are empty. -/
def c9obj2 : mach_object_file_t :=
  { magic := 0xfeedfacf, cpu_type := 0x0100000c, cpu_subtype := 0,
    file_type := 1, number_of_load_commands := 2,
    size_of_load_commands := 176, flags := 0, reserved := 0,
    commands :=
      [{ cmd := LC_SEGMENT_64, cmd_size := 152,
         body := .seg64
           { segname := [95, 95, 84, 69, 88, 84, 0, 0, 0, 0, 0, 0, 0, 0, 0, 0],
             vmaddr := 0x100, vmsize := 0x2000, fileoff := 0,
             filesize := 0x1000, maxprot := 7, initprot := 5, nsects := 1,
             flags := 0, sections := [] } },
       { cmd := LC_SYMTAB, cmd_size := 24,
         body := .symtab
           { symoff := 0, nsyms := 1, stroff := 0, strsize := 3,
             string_table := some [],
             symbol_table := some [] } }] }

/-! Part: Basic facts about the byte reader and the encoder -/

theorem encBytes_length (w v : Nat) : (encBytes w v).length = w := by
  induction w generalizing v with
  | zero => rfl
  | succ w ih => simp [encBytes, ih]

theorem leBytes_encBytes (w v : Nat) :
    leBytes (encBytes w v) = v % 2 ^ (8 * w) := by
  induction w generalizing v with
  | zero => simp [encBytes, leBytes, Nat.mod_one]
  | succ w ih =>
    rw [encBytes, leBytes, ih, show 8 * (w + 1) = 8 * w + 8 by ring, pow_add,
      show (2 : Nat) ^ 8 = 256 by norm_num, Nat.mul_comm (2 ^ (8 * w)) 256,
      Nat.mod_mul]

theorem leBytes_encBytes_of_lt {w v : Nat} (hv : v < 2 ^ (8 * w)) :
    leBytes (encBytes w v) = v := by
  rw [leBytes_encBytes, Nat.mod_eq_of_lt hv]

theorem freadBytes_enc {d : List Nat} {p : Nat} {mid rest : List Nat}
    (h : d.drop p = mid ++ rest) :
    freadBytes mid.length ⟨d, p⟩ = (mid, ⟨d, p + mid.length⟩) ∧
      d.drop (p + mid.length) = rest := by
  have hlen : d.length - p = mid.length + rest.length := by
    have hc := congrArg List.length h
    simpa using hc
  have hdrop : d.drop (p + mid.length) = rest := by
    have h2 : (d.drop p).drop mid.length = d.drop (p + mid.length) := by
      rw [List.drop_drop, Nat.add_comm]
    rw [← h2, h, List.drop_left]
  refine ⟨?_, hdrop⟩
  unfold freadBytes
  rw [h, List.take_left]
  have hmin : min mid.length (d.length - p) = mid.length := by omega
  rw [hmin]

theorem fread_enc {d : List Nat} {p w v : Nat} {rest : List Nat}
    (h : d.drop p = encBytes w v ++ rest) (hv : v < 2 ^ (8 * w)) :
    fread w ⟨d, p⟩ = (v, ⟨d, p + w⟩) ∧ d.drop (p + w) = rest := by
  have h1 := freadBytes_enc h
  rw [encBytes_length] at h1
  refine ⟨?_, h1.2⟩
  unfold fread
  rw [h1.1]
  simp [leBytes_encBytes_of_lt hv]

theorem freadBytes_name {d : List Nat} {p : Nat} {name rest : List Nat}
    (h : d.drop p = name ++ rest) (hl : name.length = 16) :
    freadBytes 16 ⟨d, p⟩ = (name, ⟨d, p + 16⟩) ∧ d.drop (p + 16) = rest := by
  have h1 := freadBytes_enc h
  rw [hl] at h1
  exact h1

/-! Part: Round trip: each record decoder inverts its encoder -/

theorem parseSection_enc {d : List Nat} {p : Nat} {s : section_64_t}
    {rest : List Nat} (hwf : wfSection s = true)
    (h : d.drop p = encodeSection s ++ rest) :
    parseSection ⟨d, p⟩ = (s, ⟨d, p + 80⟩) ∧ d.drop (p + 80) = rest := by
  obtain ⟨sectname, segname, addr, size, offset, align, reloff, nreloc,
    flags, rsv1, rsv2, rsv3⟩ := s
  simp only [wfSection, wfName, Bool.and_eq_true, decide_eq_true_eq,
    and_assoc] at hwf
  obtain ⟨hn1, -, hn2, -, ha, hs, ho, hal, hre, hnr, hf, h1, h2, h3⟩ := hwf
  rw [encodeSection] at h
  simp only [List.append_assoc] at h
  obtain ⟨e1, g1⟩ := freadBytes_name h hn1
  obtain ⟨e2, g2⟩ := freadBytes_name g1 hn2
  obtain ⟨e3, g3⟩ := fread_enc g2 ha
  obtain ⟨e4, g4⟩ := fread_enc g3 hs
  obtain ⟨e5, g5⟩ := fread_enc g4 ho
  obtain ⟨e6, g6⟩ := fread_enc g5 hal
  obtain ⟨e7, g7⟩ := fread_enc g6 hre
  obtain ⟨e8, g8⟩ := fread_enc g7 hnr
  obtain ⟨e9, g9⟩ := fread_enc g8 hf
  obtain ⟨e10, g10⟩ := fread_enc g9 h1
  obtain ⟨e11, g11⟩ := fread_enc g10 h2
  obtain ⟨e12, g12⟩ := fread_enc g11 h3
  have hp : p + 16 + 16 + 8 + 8 + 4 + 4 + 4 + 4 + 4 + 4 + 4 + 4 = p + 80 := by
    omega
  constructor
  · simp only [parseSection, e1, e2, e3, e4, e5, e6, e7, e8, e9, e10, e11,
      e12, hp]
  · rw [← hp]
    exact g12

/-- Length in bytes of an encoded command body, as consumed by the
decoder: 64 fixed bytes plus 80 per section for a segment, 72 for a
dysymtab, 16 for a symtab or build-version body. -/
def bodyLen : load_command_body → Nat
  | .seg64 g => 64 + 80 * g.sections.length
  | .symtab _ => 16
  | .dysymtab _ => 72
  | .buildVersion _ => 16

theorem encodeSection_length {s : section_64_t} (hwf : wfSection s = true) :
    (encodeSection s).length = 80 := by
  simp only [wfSection, wfName, Bool.and_eq_true, decide_eq_true_eq,
    and_assoc] at hwf
  obtain ⟨hn1, -, hn2, -, -⟩ := hwf
  simp [encodeSection, encBytes_length, hn1, hn2]

theorem encodeSegment_length {g : segment_command_64_t}
    (hwf : wfSegment g = true) :
    (encodeSegment g).length = 64 + 80 * g.sections.length := by
  simp only [wfSegment, wfName, Bool.and_eq_true, decide_eq_true_eq,
    and_assoc, List.all_eq_true] at hwf
  obtain ⟨hn, -, -, -, -, -, -, -, -, -, -, hsec⟩ := hwf
  have hflat : ((g.sections.map encodeSection).flatten).length =
      80 * g.sections.length := by
    rw [List.length_flatten]
    have hmap : g.sections.map (fun s => (encodeSection s).length) =
        g.sections.map (fun _ => 80) := by
      apply List.map_congr_left
      intro s hs
      exact encodeSection_length (hsec s hs)
    rw [List.map_map]
    simp only [Function.comp_def]
    rw [hmap]
    simp [List.map_const, Nat.mul_comm]
  simp [encodeSegment, encBytes_length, hn, hflat]
  omega

theorem parseSections_enc :
    ∀ (ss : List section_64_t) {d : List Nat} {p : Nat} {rest : List Nat},
      (∀ s ∈ ss, wfSection s = true) →
      d.drop p = (ss.map encodeSection).flatten ++ rest →
      parseSections ss.length ⟨d, p⟩ = (ss, ⟨d, p + 80 * ss.length⟩) ∧
        d.drop (p + 80 * ss.length) = rest := by
  intro ss
  induction ss with
  | nil =>
    intro d p rest _ h
    simp only [List.length_nil, parseSections, Nat.mul_zero, Nat.add_zero]
    simpa using h
  | cons s ss ih =>
    intro d p rest hwf h
    simp only [List.map_cons, List.flatten_cons, List.append_assoc] at h
    obtain ⟨e1, g1⟩ := parseSection_enc (hwf s (by simp)) h
    obtain ⟨e2, g2⟩ :=
      ih (fun x hx => hwf x (by simp [hx])) g1
    have hp : p + 80 + 80 * ss.length = p + 80 * (ss.length + 1) := by ring
    constructor
    · simp only [List.length_cons, parseSections, e1, e2, ← hp]
    · simp only [List.length_cons, ← hp]
      exact g2

theorem parseSegment_enc {d : List Nat} {p : Nat} {g : segment_command_64_t}
    {rest : List Nat} (hwf : wfSegment g = true)
    (h : d.drop p = encodeSegment g ++ rest) :
    parseSegment ⟨d, p⟩ = (g, ⟨d, p + (64 + 80 * g.sections.length)⟩) ∧
      d.drop (p + (64 + 80 * g.sections.length)) = rest := by
  obtain ⟨segname, vmaddr, vmsize, fileoff, filesize, maxprot, initprot,
    nsects, flags, sections⟩ := g
  simp only [wfSegment, wfName, Bool.and_eq_true, decide_eq_true_eq,
    and_assoc, List.all_eq_true] at hwf
  obtain ⟨hn, -, hva, hvs, hfo, hfs, hmp, hip, hnsec, hns2, hf, hsec⟩ := hwf
  subst hnsec
  rw [encodeSegment] at h
  simp only [List.append_assoc] at h
  obtain ⟨e1, g1⟩ := freadBytes_name h hn
  obtain ⟨e2, g2⟩ := fread_enc g1 hva
  obtain ⟨e3, g3⟩ := fread_enc g2 hvs
  obtain ⟨e4, g4⟩ := fread_enc g3 hfo
  obtain ⟨e5, g5⟩ := fread_enc g4 hfs
  obtain ⟨e6, g6⟩ := fread_enc g5 hmp
  obtain ⟨e7, g7⟩ := fread_enc g6 hip
  obtain ⟨e8, g8⟩ := fread_enc g7 hns2
  obtain ⟨e9, g9⟩ := fread_enc g8 hf
  obtain ⟨e10, g10⟩ := parseSections_enc sections hsec g9
  have hp : p + 16 + 8 + 8 + 8 + 8 + 4 + 4 + 4 + 4 + 80 * sections.length =
      p + (64 + 80 * sections.length) := by ring
  constructor
  · simp only [parseSegment, e1, e2, e3, e4, e5, e6, e7, e8, e9, e10, ← hp]
  · simp only [← hp]
    exact g10

theorem parseDysymtab_enc {d : List Nat} {p : Nat} {y : dysymtab_command_t}
    {rest : List Nat} (hwf : wfDysymtab y = true)
    (h : d.drop p = encodeDysymtab y ++ rest) :
    parseDysymtab ⟨d, p⟩ = (y, ⟨d, p + 72⟩) ∧ d.drop (p + 72) = rest := by
  obtain ⟨f1, f2, f3, f4, f5, f6, f7, f8, f9, f10, f11, f12, f13, f14, f15,
    f16, f17, f18⟩ := y
  simp only [wfDysymtab, Bool.and_eq_true, decide_eq_true_eq,
    and_assoc] at hwf
  obtain ⟨b1, b2, b3, b4, b5, b6, b7, b8, b9, b10, b11, b12, b13, b14, b15,
    b16, b17, b18⟩ := hwf
  rw [encodeDysymtab] at h
  simp only [List.append_assoc] at h
  obtain ⟨e1, g1⟩ := fread_enc h b1
  obtain ⟨e2, g2⟩ := fread_enc g1 b2
  obtain ⟨e3, g3⟩ := fread_enc g2 b3
  obtain ⟨e4, g4⟩ := fread_enc g3 b4
  obtain ⟨e5, g5⟩ := fread_enc g4 b5
  obtain ⟨e6, g6⟩ := fread_enc g5 b6
  obtain ⟨e7, g7⟩ := fread_enc g6 b7
  obtain ⟨e8, g8⟩ := fread_enc g7 b8
  obtain ⟨e9, g9⟩ := fread_enc g8 b9
  obtain ⟨e10, g10⟩ := fread_enc g9 b10
  obtain ⟨e11, g11⟩ := fread_enc g10 b11
  obtain ⟨e12, g12⟩ := fread_enc g11 b12
  obtain ⟨e13, g13⟩ := fread_enc g12 b13
  obtain ⟨e14, g14⟩ := fread_enc g13 b14
  obtain ⟨e15, g15⟩ := fread_enc g14 b15
  obtain ⟨e16, g16⟩ := fread_enc g15 b16
  obtain ⟨e17, g17⟩ := fread_enc g16 b17
  obtain ⟨e18, g18⟩ := fread_enc g17 b18
  have hp : p + 4 + 4 + 4 + 4 + 4 + 4 + 4 + 4 + 4 + 4 + 4 + 4 + 4 + 4 + 4 +
      4 + 4 + 4 = p + 72 := by ring
  constructor
  · simp only [parseDysymtab, e1, e2, e3, e4, e5, e6, e7, e8, e9, e10, e11,
      e12, e13, e14, e15, e16, e17, e18, ← hp]
  · rw [← hp]
    exact g18

theorem parseSymtab_enc {d : List Nat} {p : Nat} {s : symtab_command_t}
    {rest : List Nat} (hwf : wfSymtab s = true)
    (h : d.drop p = encodeSymtab s ++ rest) :
    parseSymtab ⟨d, p⟩ = (s, ⟨d, p + 16⟩) ∧ d.drop (p + 16) = rest := by
  obtain ⟨symoff, nsyms, stroff, strsize, string_table, symbol_table⟩ := s
  simp only [wfSymtab, Bool.and_eq_true, decide_eq_true_eq, and_assoc] at hwf
  obtain ⟨b1, b2, b3, b4, hst, hsy⟩ := hwf
  subst hst
  subst hsy
  rw [encodeSymtab] at h
  simp only [List.append_assoc] at h
  obtain ⟨e1, g1⟩ := fread_enc h b1
  obtain ⟨e2, g2⟩ := fread_enc g1 b2
  obtain ⟨e3, g3⟩ := fread_enc g2 b3
  obtain ⟨e4, g4⟩ := fread_enc g3 b4
  have hp : p + 4 + 4 + 4 + 4 = p + 16 := by ring
  constructor
  · simp only [parseSymtab, e1, e2, e3, e4, ← hp]
  · rw [← hp]
    exact g4

theorem parseBuildVersion_enc {d : List Nat} {p : Nat}
    {b : build_version_command_t} {rest : List Nat}
    (hwf : wfBuildVersion b = true)
    (h : d.drop p = encodeBuildVersion b ++ rest) :
    parseBuildVersion ⟨d, p⟩ = (b, ⟨d, p + 16⟩) ∧ d.drop (p + 16) = rest := by
  obtain ⟨platform, minos, sdk, ntools⟩ := b
  simp only [wfBuildVersion, Bool.and_eq_true, decide_eq_true_eq,
    and_assoc] at hwf
  obtain ⟨b1, b2, b3, b4⟩ := hwf
  rw [encodeBuildVersion] at h
  simp only [List.append_assoc] at h
  obtain ⟨e1, g1⟩ := fread_enc h b1
  obtain ⟨e2, g2⟩ := fread_enc g1 b2
  obtain ⟨e3, g3⟩ := fread_enc g2 b3
  obtain ⟨e4, g4⟩ := fread_enc g3 b4
  have hp : p + 4 + 4 + 4 + 4 = p + 16 := by ring
  constructor
  · simp only [parseBuildVersion, e1, e2, e3, e4, ← hp]
  · rw [← hp]
    exact g4

theorem encodeCommand_length {c : load_command_t}
    (hwf : wfCommand c = true) :
    (encodeCommand c).length = 8 + bodyLen c.body := by
  obtain ⟨cmd, cmd_size, body⟩ := c
  cases body with
  | seg64 g =>
    simp only [wfCommand, Bool.and_eq_true, decide_eq_true_eq,
      and_assoc] at hwf
    obtain ⟨-, -, hwfb⟩ := hwf
    simp [encodeCommand, encodeBody, encBytes_length, bodyLen,
      encodeSegment_length hwfb]
    ring
  | symtab s =>
    simp [encodeCommand, encodeBody, encodeSymtab, encBytes_length, bodyLen]
  | dysymtab y =>
    simp [encodeCommand, encodeBody, encodeDysymtab, encBytes_length,
      bodyLen]
  | buildVersion b =>
    simp [encodeCommand, encodeBody, encodeBuildVersion, encBytes_length,
      bodyLen]

theorem parseCommand_enc {d : List Nat} {p : Nat} {c : load_command_t}
    {rest : List Nat} (hwf : wfCommand c = true)
    (h : d.drop p = encodeCommand c ++ rest) :
    parseCommand ⟨d, p⟩ = .ok (c, ⟨d, p + (8 + bodyLen c.body)⟩) ∧
      d.drop (p + (8 + bodyLen c.body)) = rest := by
  obtain ⟨cmd, cmd_size, body⟩ := c
  rw [encodeCommand] at h
  simp only [List.append_assoc] at h
  cases body with
  | seg64 g =>
    simp only [wfCommand, Bool.and_eq_true, decide_eq_true_eq,
      and_assoc] at hwf
    obtain ⟨hsz, hcmd, hwfb⟩ := hwf
    subst hcmd
    obtain ⟨e1, g1⟩ := fread_enc h (by decide)
    obtain ⟨e2, g2⟩ := fread_enc g1 hsz
    obtain ⟨e3, g3⟩ := parseSegment_enc hwfb g2
    have hp : p + 4 + 4 + (64 + 80 * g.sections.length) =
        p + (8 + bodyLen (load_command_body.seg64 g)) := by
      simp only [bodyLen]
      ring
    constructor
    · simp only [parseCommand, LC_SEGMENT_64, LC_DYSYMTAB, LC_SYMTAB,
        LC_BUILD_VERSION, e1, e2, e3, if_true]
      rw [hp]
    · rw [← hp]
      exact g3
  | dysymtab y =>
    simp only [wfCommand, Bool.and_eq_true, decide_eq_true_eq,
      and_assoc] at hwf
    obtain ⟨hsz, hcmd, hwfb⟩ := hwf
    subst hcmd
    obtain ⟨e1, g1⟩ := fread_enc h (by decide)
    obtain ⟨e2, g2⟩ := fread_enc g1 hsz
    obtain ⟨e3, g3⟩ := parseDysymtab_enc hwfb g2
    have hp : p + 4 + 4 + 72 =
        p + (8 + bodyLen (load_command_body.dysymtab y)) := by
      simp only [bodyLen]
    constructor
    · simp only [parseCommand, LC_SEGMENT_64, LC_DYSYMTAB, LC_SYMTAB,
        LC_BUILD_VERSION, e1, e2, e3, if_true]
      rw [hp]
      norm_num
    · rw [← hp]
      exact g3
  | symtab s =>
    simp only [wfCommand, Bool.and_eq_true, decide_eq_true_eq,
      and_assoc] at hwf
    obtain ⟨hsz, hcmd, hwfb⟩ := hwf
    subst hcmd
    obtain ⟨e1, g1⟩ := fread_enc h (by decide)
    obtain ⟨e2, g2⟩ := fread_enc g1 hsz
    obtain ⟨e3, g3⟩ := parseSymtab_enc hwfb g2
    have hp : p + 4 + 4 + 16 =
        p + (8 + bodyLen (load_command_body.symtab s)) := by
      simp only [bodyLen]
    constructor
    · simp only [parseCommand, LC_SEGMENT_64, LC_DYSYMTAB, LC_SYMTAB,
        LC_BUILD_VERSION, e1, e2, e3, if_true]
      rw [hp]
      norm_num
    · rw [← hp]
      exact g3
  | buildVersion b =>
    simp only [wfCommand, Bool.and_eq_true, decide_eq_true_eq,
      and_assoc] at hwf
    obtain ⟨hsz, hcmd, hwfb⟩ := hwf
    subst hcmd
    obtain ⟨e1, g1⟩ := fread_enc h (by decide)
    obtain ⟨e2, g2⟩ := fread_enc g1 hsz
    obtain ⟨e3, g3⟩ := parseBuildVersion_enc hwfb g2
    have hp : p + 4 + 4 + 16 =
        p + (8 + bodyLen (load_command_body.buildVersion b)) := by
      simp only [bodyLen]
    constructor
    · simp only [parseCommand, LC_SEGMENT_64, LC_DYSYMTAB, LC_SYMTAB,
        LC_BUILD_VERSION, e1, e2, e3, if_true]
      rw [hp]
      norm_num
    · rw [← hp]
      exact g3

theorem parseCommands_enc :
    ∀ (cs : List load_command_t) {d : List Nat} {p : Nat} {rest : List Nat},
      wfCommands cs = true →
      d.drop p = encodeCmds cs ++ rest →
      parseCommands cs.length ⟨d, p⟩ =
          .ok (cs, ⟨d, p + (encodeCmds cs).length⟩) ∧
        d.drop (p + (encodeCmds cs).length) = rest := by
  intro cs
  induction cs with
  | nil =>
    intro d p rest _ h
    simp only [encodeCmds, List.map_nil, List.flatten_nil,
      List.nil_append] at h
    simp only [List.length_nil, parseCommands, encodeCmds, List.map_nil,
      List.flatten_nil, Nat.add_zero]
    exact ⟨trivial, h⟩
  | cons c cs ih =>
    intro d p rest hwf h
    simp only [wfCommands, List.all_cons, Bool.and_eq_true] at hwf
    obtain ⟨hwc, hwcs⟩ := hwf
    have h' : d.drop p = encodeCommand c ++ (encodeCmds cs ++ rest) := by
      simpa [encodeCmds, List.append_assoc] using h
    obtain ⟨e1, g1⟩ := parseCommand_enc hwc h'
    obtain ⟨e2, g2⟩ := ih hwcs g1
    have hlen : (encodeCommand c).length = 8 + bodyLen c.body :=
      encodeCommand_length hwc
    have hp : p + (8 + bodyLen c.body) + (encodeCmds cs).length =
        p + (encodeCmds (c :: cs)).length := by
      have : (encodeCmds (c :: cs)).length =
          (encodeCommand c).length + (encodeCmds cs).length := by
        simp [encodeCmds]
      omega
    constructor
    · simp only [List.length_cons, parseCommands, e1, e2, ← hp]
    · rw [← hp]
      exact g2

theorem parseHeader_enc {d : List Nat} {p : Nat} {o : mach_object_file_t}
    {rest : List Nat} (hwf : wfFile o = true)
    (h : d.drop p = encodeHeaderBytes o ++ rest) :
    parseHeader ⟨d, p⟩ = ({o with commands := []}, ⟨d, p + 32⟩) ∧
      d.drop (p + 32) = rest := by
  obtain ⟨m, ct, cst, ft, nc, sz, fl, rv, cmds⟩ := o
  simp only [wfFile, Bool.and_eq_true, decide_eq_true_eq, and_assoc] at hwf
  obtain ⟨b1, b2, b3, b4, b5, b6, b7, b8, -⟩ := hwf
  rw [encodeHeaderBytes] at h
  simp only [List.append_assoc] at h
  obtain ⟨e1, g1⟩ := fread_enc h b1
  obtain ⟨e2, g2⟩ := fread_enc g1 b2
  obtain ⟨e3, g3⟩ := fread_enc g2 b3
  obtain ⟨e4, g4⟩ := fread_enc g3 b4
  obtain ⟨e5, g5⟩ := fread_enc g4 b5
  obtain ⟨e6, g6⟩ := fread_enc g5 b6
  obtain ⟨e7, g7⟩ := fread_enc g6 b7
  obtain ⟨e8, g8⟩ := fread_enc g7 b8
  have hp : p + 4 + 4 + 4 + 4 + 4 + 4 + 4 + 4 = p + 32 := by ring
  constructor
  · simp only [parseHeader, e1, e2, e3, e4, e5, e6, e7, e8, ← hp]
  · rw [← hp]
    exact g8

/-! Part: Structural helper lemmas -/

theorem encodeHeaderBytes_length (o : mach_object_file_t) :
    (encodeHeaderBytes o).length = 32 := by
  simp [encodeHeaderBytes, encBytes_length]

theorem wfFile_commands {o : mach_object_file_t} (hwf : wfFile o = true) :
    wfCommands o.commands = true := by
  simp only [wfFile, Bool.and_eq_true, decide_eq_true_eq, and_assoc] at hwf
  exact hwf.2.2.2.2.2.2.2.2

theorem parseSections_length (n : Nat) (st : RState) :
    (parseSections n st).1.length = n := by
  induction n generalizing st with
  | zero => rfl
  | succ n ih => simp [parseSections, ih]

theorem readNlists_length (n : Nat) (st : RState) :
    (readNlists n st).1.length = n := by
  induction n generalizing st with
  | zero => rfl
  | succ n ih => simp [readNlists, ih]

theorem parseCommands_length :
    ∀ (n : Nat) (st : RState) (cs : List load_command_t) (st' : RState),
      parseCommands n st = .ok (cs, st') → cs.length = n := by
  intro n
  induction n with
  | zero =>
    intro st cs st' h
    simp only [parseCommands, Except.ok.injEq, Prod.mk.injEq] at h
    rw [← h.1]
    rfl
  | succ n ih =>
    intro st cs st' h
    simp only [parseCommands] at h
    cases hc : parseCommand st with
    | error e => rw [hc] at h; simp at h
    | ok r =>
      obtain ⟨c, st2⟩ := r
      rw [hc] at h
      simp only at h
      cases hcs : parseCommands n st2 with
      | error e => rw [hcs] at h; simp at h
      | ok r2 =>
        obtain ⟨cs2, st3⟩ := r2
        rw [hcs] at h
        simp only [Except.ok.injEq, Prod.mk.injEq] at h
        have hl := ih st2 cs2 st3 hcs
        rw [← h.1]
        simp [hl]

theorem resolvePass_length (d : List Nat) (cs : List load_command_t) :
    (resolvePass d cs).length = cs.length := by
  induction cs with
  | nil => rfl
  | cons c cs ih =>
    by_cases hc : c.cmd = LC_SYMTAB
    · simp [resolvePass, hc]
    · simp [resolvePass, hc, ih]

theorem resolvePass_no_symtab (d : List Nat) :
    ∀ (cs : List load_command_t), (∀ x ∈ cs, x.cmd ≠ LC_SYMTAB) →
      resolvePass d cs = cs := by
  intro cs
  induction cs with
  | nil => intro h; rfl
  | cons c cs ih =>
    intro h
    have hc : c.cmd ≠ LC_SYMTAB := h c (by simp)
    simp [resolvePass, hc, ih (fun x hx => h x (by simp [hx]))]

theorem resolvePass_first (d : List Nat) :
    ∀ (cs1 : List load_command_t) (c : load_command_t)
      (cs2 : List load_command_t),
      (∀ x ∈ cs1, x.cmd ≠ LC_SYMTAB) → c.cmd = LC_SYMTAB →
      resolvePass d (cs1 ++ c :: cs2) =
        cs1 ++ resolveSymtabCmd d c :: cs2 := by
  intro cs1
  induction cs1 with
  | nil =>
    intro c cs2 _ hc
    simp [resolvePass, hc]
  | cons x cs1 ih =>
    intro c cs2 hfirst hc
    have hx : x.cmd ≠ LC_SYMTAB := hfirst x (by simp)
    simp only [List.cons_append, resolvePass, if_neg hx, List.append_eq]
    rw [ih c cs2 (fun y hy => hfirst y (by simp [hy])) hc]

theorem resolveSymtabCmd_eq {d : List Nat} {c : load_command_t}
    {s : symtab_command_t} (hb : c.body = .symtab s) :
    resolveSymtabCmd d c =
      { cmd := c.cmd, cmd_size := c.cmd_size,
        body := load_command_body.symtab
          { symoff := s.symoff, nsyms := s.nsyms, stroff := s.stroff,
            strsize := s.strsize,
            string_table := s.string_table,
            symbol_table := some (readNlists s.nsyms ⟨d, s.symoff⟩).1 } } := by
  obtain ⟨cmd, sz, body⟩ := c
  simp only at hb
  subst hb
  simp [resolveSymtabCmd]

/-- The full round trip for one well-formed encoded object: the header
reader returns the written header, and the decode loop returns the written
commands, consuming the whole stream. -/
theorem file_round_trip (o : mach_object_file_t) (hwf : wfFile o = true)
    (hn : o.number_of_load_commands = o.commands.length) :
    parseHeader ⟨encodeFile o, 0⟩ =
      ({ o with commands := [] }, ⟨encodeFile o, 32⟩) ∧
    parseCommands o.number_of_load_commands ⟨encodeFile o, 32⟩ =
      .ok (o.commands, ⟨encodeFile o, (encodeFile o).length⟩) := by
  have hdrop0 : (encodeFile o).drop 0 =
      encodeHeaderBytes o ++ encodeCmds o.commands := by
    simp [encodeFile]
  obtain ⟨e1, g1⟩ := parseHeader_enc hwf hdrop0
  rw [Nat.zero_add] at e1 g1
  have g1' : (encodeFile o).drop 32 = encodeCmds o.commands ++ [] := by
    simpa using g1
  obtain ⟨e2, g2⟩ :=
    parseCommands_enc o.commands (wfFile_commands hwf) g1'
  have hlen : (encodeFile o).length = 32 + (encodeCmds o.commands).length := by
    simp [encodeFile, encodeHeaderBytes_length]
  refine ⟨e1, ?_⟩
  rw [hn, hlen]
  exact e2

/-! Part: Claim theorems -/

/-- Claim C1: decoding a well-formed encoded stream whose header declares
`ncmds = k` and which contains exactly the `k` written recognised commands
yields the written header and exactly those `k` commands in source order,
every stored field (tag, command size and every body field, sections
included) equal to the value written, consuming the entire stream. -/
theorem c1_round_trip (o : mach_object_file_t) (hwf : wfFile o = true)
    (hn : o.number_of_load_commands = o.commands.length) :
    parseHeader ⟨encodeFile o, 0⟩ =
      ({ o with commands := [] }, ⟨encodeFile o, 32⟩) ∧
    parseCommands o.number_of_load_commands ⟨encodeFile o, 32⟩ =
      .ok (o.commands, ⟨encodeFile o, (encodeFile o).length⟩) :=
  file_round_trip o hwf hn

/-- Witness for C1 at a concrete two-command object (a segment with one
section and a build-version command). -/
theorem c1_round_trip_witness :
    parseHeader ⟨encodeFile c1obj, 0⟩ =
      ({ c1obj with commands := [] }, ⟨encodeFile c1obj, 32⟩) ∧
    parseCommands c1obj.number_of_load_commands ⟨encodeFile c1obj, 32⟩ =
      .ok (c1obj.commands, ⟨encodeFile c1obj, (encodeFile c1obj).length⟩) :=
  c1_round_trip c1obj (by decide) (by decide)

/-- Claim C2 is violated by the code: on the 2-byte stream
`[0xcf, 0xfa]` — the 32-bit magic field truncated strictly inside — the
decode does not fail at all.  The two available bytes land in `magic`,
every later header field silently keeps the zeroed global's value, zero
commands are read, and a fully "successful" zero-filled object is
returned.  (The embedded error type has no truncation case because the
source checks no `fread` return value anywhere.) -/
theorem c2_truncation_not_detected :
    parse_file [0xcf, 0xfa] =
      .ok { magic := 0xfacf, cpu_type := 0, cpu_subtype := 0,
            file_type := 0, number_of_load_commands := 0,
            size_of_load_commands := 0, flags := 0, reserved := 0,
            commands := [] } := by
  rfl

/-- Claim C3 is violated by the code: the resolver reads the string-table
bytes into a function-local buffer that is never assigned to the stored
command (main.c lines 366-367 leak it) and attaches only the symbol
table, so "both fields are populated on the stored command" is false.
Evaluated at a concrete stream and decoded sequence: after the resolver
pass the symtab command's `symbol_table` holds the `nsyms` 16-byte
entries decoded at `symoff`, but its `string_table` is still
unpopulated. -/
theorem c3_string_table_not_attached :
    resolvePass c3data [c3cmd] =
      [{ cmd := LC_SYMTAB, cmd_size := 24,
         body := load_command_body.symtab
           { symoff := 0, nsyms := 1, stroff := 0, strsize := 4,
             string_table := none,
             symbol_table := some (readNlists 1 ⟨c3data, 0⟩).1 } }] ∧
    (readNlists 1 ⟨c3data, 0⟩).1.length = 1 :=
  ⟨rfl, rfl⟩

/-- Claim C4: an unrecognised load-command tag makes the decode fail
immediately with `UnsupportedLoadCommand` naming that tag; no further
records are consumed and no partial result is produced, however many
commands were still declared. -/
theorem c4_unknown_tag_rejected (d : List Nat) (p n t : Nat)
    (ht : (fread 4 ⟨d, p⟩).1 = t)
    (h1 : t ≠ LC_SEGMENT_64) (h2 : t ≠ LC_DYSYMTAB) (h3 : t ≠ LC_SYMTAB)
    (h4 : t ≠ LC_BUILD_VERSION) :
    parseCommands (n + 1) ⟨d, p⟩ =
      .error (.unsupportedLoadCommand t) := by
  have hcmd : parseCommand ⟨d, p⟩ = .error (.unsupportedLoadCommand t) := by
    simp only [parseCommand, ht]
    rw [if_neg h1, if_neg h2, if_neg h3, if_neg h4]
  simp [parseCommands, hcmd]

/-- Witness for C4: tag 5 (`LC_UNIXTHREAD`) is rejected by name. -/
theorem c4_unknown_tag_rejected_witness :
    parseCommands 1 ⟨[5, 0, 0, 0], 0⟩ =
      .error (.unsupportedLoadCommand 5) :=
  c4_unknown_tag_rejected [5, 0, 0, 0] 0 0 5 (by decide) (by decide)
    (by decide) (by decide) (by decide)

/-- Claim C5: a decoded segment always carries a section list whose length
is exactly its decoded `nsects` (for `nsects = 0` the section loop
consumes nothing and leaves the state untouched), and a successfully
decoded object always has exactly `number_of_load_commands` commands. -/
theorem c5_cardinality (d : List Nat) (obj : mach_object_file_t)
    (hobj : parse_file d = .ok obj) (st : RState) :
    (parseSegment st).1.sections.length = (parseSegment st).1.nsects ∧
    parseSections 0 st = ([], st) ∧
    obj.commands.length = obj.number_of_load_commands := by
  refine ⟨?_, rfl, ?_⟩
  · simp [parseSegment, parseSections_length]
  · simp only [parse_file] at hobj
    cases hpc : parseCommands (parseHeader ⟨d, 0⟩).1.number_of_load_commands
        (parseHeader ⟨d, 0⟩).2 with
    | error e =>
      rw [hpc] at hobj
      simp at hobj
    | ok r =>
      obtain ⟨cs, stq⟩ := r
      rw [hpc] at hobj
      simp only [Except.ok.injEq] at hobj
      have hlen := parseCommands_length _ _ _ _ hpc
      subst hobj
      simp [resolvePass_length, hlen]

set_option maxRecDepth 100000 in
/-- Witness for C5 at a concrete decoded object. -/
theorem c5_cardinality_witness :
    (parseSegment ⟨[], 0⟩).1.sections.length =
      (parseSegment ⟨[], 0⟩).1.nsects ∧
    parseSections 0 ⟨[], 0⟩ = ([], ⟨[], 0⟩) ∧
    c1obj.commands.length = c1obj.number_of_load_commands :=
  c5_cardinality (encodeFile c1obj) c1obj (by rfl) ⟨[], 0⟩

/-- Claim C6: when the decoded sequence has two or more symtab commands,
only the first in source order is resolved: the whole tail after it —
including every further symtab command, whose offsets are therefore never
dereferenced (the result does not depend on them or on any stream byte
they point at) and whose resolver fields stay unpopulated — is returned
verbatim. -/
theorem c6_first_symtab_wins (d : List Nat) (cs1 cs2 : List load_command_t)
    (c : load_command_t) (hfirst : ∀ x ∈ cs1, x.cmd ≠ LC_SYMTAB)
    (hc : c.cmd = LC_SYMTAB) :
    resolvePass d (cs1 ++ c :: cs2) =
      cs1 ++ resolveSymtabCmd d c :: cs2 ∧
    (resolvePass d (cs1 ++ c :: cs2)).drop (cs1.length + 1) = cs2 := by
  have h := resolvePass_first d cs1 c cs2 hfirst hc
  refine ⟨h, ?_⟩
  rw [h, show cs1 ++ resolveSymtabCmd d c :: cs2 =
      (cs1 ++ [resolveSymtabCmd d c]) ++ cs2 by simp,
    show cs1.length + 1 = (cs1 ++ [resolveSymtabCmd d c]).length by simp,
    List.drop_left]

/-- Witness for C6 with two symtab commands: the second one survives with
both resolver fields still `none`. -/
theorem c6_first_symtab_wins_witness :
    resolvePass c3data
        ([] ++ mkSymtabCmd 24 0 0 0 2 :: [mkSymtabCmd 24 8 1 4 4]) =
      [] ++ resolveSymtabCmd c3data (mkSymtabCmd 24 0 0 0 2) ::
        [mkSymtabCmd 24 8 1 4 4] ∧
    (resolvePass c3data
        ([] ++ mkSymtabCmd 24 0 0 0 2 ::
          [mkSymtabCmd 24 8 1 4 4])).drop
        (([] : List load_command_t).length + 1) =
      [mkSymtabCmd 24 8 1 4 4] :=
  c6_first_symtab_wins c3data [] [mkSymtabCmd 24 8 1 4 4]
    (mkSymtabCmd 24 0 0 0 2) (by simp) (by decide)

/-- Claim C7: with no symtab command in the decoded sequence the resolver
pass is a no-op on every stream: the commands come back unchanged (no
field populated), and no error can arise (the pass is a total function
whose codomain has no error case). -/
theorem c7_no_symtab_noop (d : List Nat) (cs : List load_command_t)
    (h : ∀ x ∈ cs, x.cmd ≠ LC_SYMTAB) :
    resolvePass d cs = cs :=
  resolvePass_no_symtab d cs h

/-- Witness for C7 on a segment + build-version command list. -/
theorem c7_no_symtab_noop_witness :
    resolvePass [] c1obj.commands = c1obj.commands :=
  c7_no_symtab_noop [] c1obj.commands (by decide)

theorem encodeFile_drop32 (o : mach_object_file_t) :
    (encodeFile o).drop 32 = encodeCmds o.commands := by
  rw [encodeFile, ← encodeHeaderBytes_length o, List.drop_left]

theorem encodeCmds_length_forall₂ {cs cs' : List load_command_t}
    (hf : List.Forall₂ (fun a b => a.cmd = b.cmd ∧ a.body = b.body) cs cs') :
    wfCommands cs = true → wfCommands cs' = true →
    (encodeCmds cs).length = (encodeCmds cs').length := by
  induction hf with
  | nil => intro _ _; rfl
  | cons hab htail ih =>
    intro hw hw'
    simp only [wfCommands, List.all_cons, Bool.and_eq_true] at hw hw'
    have h1 := encodeCommand_length hw.1
    have h2 := encodeCommand_length hw'.1
    have hb : bodyLen _ = bodyLen _ := congrArg bodyLen hab.2
    have htl := ih hw.2 hw'.2
    simp only [encodeCmds, List.map_cons, List.flatten_cons,
      List.length_append] at htl ⊢
    omega

set_option maxRecDepth 100000 in
/-- Counterexample to C8 as stated: two streams that differ only in the
four bytes of one command's `cmd_size` field (offsets 36-39) whose decode
results differ beyond the stored `cmd_size`: the command's symtab body
declares `symoff = 36` with `nsyms = 1`, so the resolver decodes the
`cmd_size` bytes again as the attached symbol entry's `n_strx` and stores
that entry in the body. -/
theorem c8_counterexample :
    (encodeFile c8obj1).take 36 = (encodeFile c8obj2).take 36 ∧
    (encodeFile c8obj1).drop 40 = (encodeFile c8obj2).drop 40 ∧
    (encodeFile c8obj1).length = (encodeFile c8obj2).length ∧
    resultExceptSize (parse_file (encodeFile c8obj1)) ≠
      resultExceptSize (parse_file (encodeFile c8obj2)) := by
  exact ⟨rfl, rfl, rfl, by decide⟩

/-- Claim C8 (amended): the load-command decoding pass stores each
declared `cmd_size` verbatim and never uses it: for two well-formed
streams whose commands differ only in their `cmd_size` fields, the decode
pass consumes exactly the same bytes (same final cursor, same total
length) and returns the respective command lists, which differ only in the
stored `cmd_size` values.  (Only the resolver pass can observe a
`cmd_size` again, by decoding its bytes into attached symbol entries when
the `symoff` range overlaps it — the counterexample; a `stroff` overlap
alone cannot, since the string-table read is leaked, never attached.) -/
theorem c8_decode_ignores_cmd_size (o : mach_object_file_t)
    (cs' : List load_command_t) (hwf : wfFile o = true)
    (hwf' : wfFile { o with commands := cs' } = true)
    (hn : o.number_of_load_commands = o.commands.length)
    (hdiff : List.Forall₂ (fun a b => a.cmd = b.cmd ∧ a.body = b.body)
      o.commands cs') :
    parseCommands o.number_of_load_commands ⟨encodeFile o, 32⟩ =
      .ok (o.commands, ⟨encodeFile o, (encodeFile o).length⟩) ∧
    parseCommands o.number_of_load_commands
        ⟨encodeFile { o with commands := cs' }, 32⟩ =
      .ok (cs', ⟨encodeFile { o with commands := cs' },
        (encodeFile { o with commands := cs' }).length⟩) ∧
    (encodeFile o).length =
      (encodeFile { o with commands := cs' }).length := by
  have hlen2 : o.commands.length = cs'.length := hdiff.length_eq
  have h1 := (file_round_trip o hwf hn).2
  have hn' : ({ o with commands := cs' } :
      mach_object_file_t).number_of_load_commands = cs'.length := by
    have : ({ o with commands := cs' } :
        mach_object_file_t).number_of_load_commands =
        o.number_of_load_commands := rfl
    omega
  have h2 := (file_round_trip { o with commands := cs' } hwf' hn').2
  refine ⟨h1, ?_, ?_⟩
  · exact h2
  · have hcl := encodeCmds_length_forall₂ hdiff (wfFile_commands hwf)
      (wfFile_commands hwf')
    simp only [encodeFile, List.length_append, encodeHeaderBytes_length]
    omega

/-- Witness for the amended C8 at a concrete one-command object whose
`cmd_size` is 0 in one stream and 1 in the other. -/
theorem c8_decode_ignores_cmd_size_witness :
    parseCommands c8obj1.number_of_load_commands ⟨encodeFile c8obj1, 32⟩ =
      .ok (c8obj1.commands, ⟨encodeFile c8obj1, (encodeFile c8obj1).length⟩) ∧
    parseCommands c8obj1.number_of_load_commands
        ⟨encodeFile { c8obj1 with commands := [mkSymtabCmd 1 36 1 0 0] }, 32⟩ =
      .ok ([mkSymtabCmd 1 36 1 0 0],
        ⟨encodeFile { c8obj1 with commands := [mkSymtabCmd 1 36 1 0 0] },
          (encodeFile { c8obj1 with
            commands := [mkSymtabCmd 1 36 1 0 0] }).length⟩) ∧
    (encodeFile c8obj1).length =
      (encodeFile { c8obj1 with
        commands := [mkSymtabCmd 1 36 1 0 0] }).length :=
  c8_decode_ignores_cmd_size c8obj1 [mkSymtabCmd 1 36 1 0 0] (by decide)
    (by decide) (by decide)
    (List.Forall₂.cons ⟨rfl, rfl⟩ List.Forall₂.nil)

/-- C9 is violated by the code: the rendered report is identical for two
decoded objects that differ in a segment's `vmsize`, in its whole section
list, and in the resolved string/symbol tables of a symtab command — so
those decoded fields are not represented in the report (`pretty_print`
prints `vmaddr` on the `vmsize` line, never prints section records, and
never prints the resolved tables). -/
theorem c9_report_omits_fields :
    pretty_print c9obj1 = pretty_print c9obj2 ∧
    c9obj1.commands ≠ c9obj2.commands := by
  exact ⟨rfl, by decide⟩

set_option maxRecDepth 100000 in
/-- Counterexample to C10 as stated: two streams that differ only in the
header's `cpu_type` word (offsets 4-7) whose decode results differ in the
decoded command sequence, not only in the verbatim-stored header fields:
the symtab command declares `symoff = 4` with `nsyms = 1`, so the
resolver decodes the changed `cpu_type` bytes again as the attached
symbol entry's `n_strx` and stores that entry in the command body. -/
theorem c10_counterexample :
    (encodeFile c10obj1).take 4 = (encodeFile c10obj2).take 4 ∧
    (encodeFile c10obj1).drop 8 = (encodeFile c10obj2).drop 8 ∧
    (encodeFile c10obj1).length = (encodeFile c10obj2).length ∧
    resultCommands (parse_file (encodeFile c10obj1)) ≠
      resultCommands (parse_file (encodeFile c10obj2)) := by
  exact ⟨rfl, rfl, rfl, by decide⟩

/-- Claim C10 (amended): the load-command decoding pass depends on the
header only through the load-command count: two well-formed streams that
agree on `ncmds` and on the command bytes but differ in the other seven
header words produce byte-identical command regions, the same decoded
command list, and the same consumption, differing only in the
verbatim-stored header fields; in particular `size_of_load_commands` is
never cross-checked and an invalid magic is never rejected.  (Only the
resolver pass can observe the other header words, by decoding their bytes
into attached symbol entries when the `symoff` range overlaps them — the
counterexample; a `stroff` overlap alone cannot, since the string-table
read is leaked, never attached.) -/
theorem c10_header_only_ncmds (o1 o2 : mach_object_file_t)
    (hwf1 : wfFile o1 = true) (hwf2 : wfFile o2 = true)
    (hn1 : o1.number_of_load_commands = o1.commands.length)
    (hncmds : o1.number_of_load_commands = o2.number_of_load_commands)
    (hcs : o1.commands = o2.commands) :
    (encodeFile o1).drop 32 = (encodeFile o2).drop 32 ∧
    parseHeader ⟨encodeFile o1, 0⟩ =
      ({ o1 with commands := [] }, ⟨encodeFile o1, 32⟩) ∧
    parseHeader ⟨encodeFile o2, 0⟩ =
      ({ o2 with commands := [] }, ⟨encodeFile o2, 32⟩) ∧
    parseCommands o1.number_of_load_commands ⟨encodeFile o1, 32⟩ =
      .ok (o1.commands, ⟨encodeFile o1, (encodeFile o1).length⟩) ∧
    parseCommands o1.number_of_load_commands ⟨encodeFile o2, 32⟩ =
      .ok (o1.commands, ⟨encodeFile o2, (encodeFile o2).length⟩) ∧
    (encodeFile o1).length = (encodeFile o2).length := by
  have hn2 : o2.number_of_load_commands = o2.commands.length := by
    rw [← hncmds, ← hcs]
    exact hn1
  obtain ⟨e1, f1⟩ := file_round_trip o1 hwf1 hn1
  obtain ⟨e2, f2⟩ := file_round_trip o2 hwf2 hn2
  refine ⟨?_, e1, e2, f1, ?_, ?_⟩
  · rw [encodeFile_drop32, encodeFile_drop32, hcs]
  · rw [hncmds, hcs]
    exact f2
  · simp only [encodeFile, List.length_append, encodeHeaderBytes_length,
      hcs]

/-- Witness for the amended C10 at two concrete objects differing only in
`cpu_type`. -/
theorem c10_header_only_ncmds_witness :
    (encodeFile c10obj1).drop 32 = (encodeFile c10obj2).drop 32 ∧
    parseHeader ⟨encodeFile c10obj1, 0⟩ =
      ({ c10obj1 with commands := [] }, ⟨encodeFile c10obj1, 32⟩) ∧
    parseHeader ⟨encodeFile c10obj2, 0⟩ =
      ({ c10obj2 with commands := [] }, ⟨encodeFile c10obj2, 32⟩) ∧
    parseCommands c10obj1.number_of_load_commands
        ⟨encodeFile c10obj1, 32⟩ =
      .ok (c10obj1.commands,
        ⟨encodeFile c10obj1, (encodeFile c10obj1).length⟩) ∧
    parseCommands c10obj1.number_of_load_commands
        ⟨encodeFile c10obj2, 32⟩ =
      .ok (c10obj1.commands,
        ⟨encodeFile c10obj2, (encodeFile c10obj2).length⟩) ∧
    (encodeFile c10obj1).length = (encodeFile c10obj2).length :=
  c10_header_only_ncmds c10obj1 c10obj2 (by decide) (by decide) (by decide)
    rfl rfl

end Zd
